import Mathlib

/-!
Verification of the auth-bot token issuance, validation and subscription
lifecycle engine (`src/auth_bot`).  Every definition is a shallow embedding
of the corresponding Python function; timestamps are integer seconds since
epoch (`Int`), byte strings are `List Nat` with each entry `< 256`, and
Python exceptions are modelled as `none` / explicit raised-flags.  The
database layer (`auth_bot/database/db_handler.py`) is not part of the
source tree — only its callers are — so its operations are modelled from
the spec where marked.
-/

/-- Bytes of an ASCII string (models Python `str.encode()`; all strings the
token codec serializes are ASCII because `json.dumps` escapes non-ASCII). -/
def strToBytes (s : String) : List Nat :=
  s.data.map Char.toNat

/-- Inverse direction: models `bytes.decode()` restricted to ASCII input;
fails (like a `UnicodeDecodeError`, which `validate_token` catches) on any
byte outside the ASCII range. -/
def bytesToStr (bs : List Nat) : Option String :=
  if bs.all (fun b => b < 128) then some (String.mk (bs.map Char.ofNat)) else none

/-- The URL-safe base64 alphabet used by `base64.urlsafe_b64encode`. -/
def b64alphabet : List Char :=
  "ABCDEFGHIJKLMNOPQRSTUVWXYZabcdefghijklmnopqrstuvwxyz0123456789-_".data

def b64char (n : Nat) : Char := b64alphabet.getD n 'A'

/-- Index of a character in the base64 alphabet. -/
def b64index : List Char → Nat → Char → Option Nat
  | [], _, _ => none
  | a :: rest, i, c => if a = c then some i else b64index rest (i + 1) c

def b64charIndex (c : Char) : Option Nat := b64index b64alphabet 0 c

/-- `base64.urlsafe_b64encode` on a byte list, producing the padded
character stream three input bytes at a time. -/
def b64encodeBytes : List Nat → List Char
  | [] => []
  | [a] => [b64char (a / 4), b64char (a % 4 * 16), '=', '=']
  | [a, b] => [b64char (a / 4), b64char (a % 4 * 16 + b / 16), b64char (b % 16 * 4), '=']
  | a :: b :: c :: rest =>
      b64char (a / 4) :: b64char (a % 4 * 16 + b / 16) ::
      b64char (b % 16 * 4 + c / 64) :: b64char (c % 64) :: b64encodeBytes rest

def b64urlEncode (bs : List Nat) : String := String.mk (b64encodeBytes bs)

/-- `base64.urlsafe_b64decode` restricted to canonically padded input made
of alphabet characters only (the only shape `generate_token` emits); any
other input fails, which `validate_token` catches and collapses to
`(False, None)`. -/
def b64decodeChars : List Char → Option (List Nat)
  | [] => some []
  | w :: x :: y :: z :: rest =>
      match b64charIndex w, b64charIndex x with
      | some a, some b =>
        if y = '=' then
          if z = '=' ∧ rest = [] ∧ b % 16 = 0 then some [a * 4 + b / 16] else none
        else
          match b64charIndex y with
          | some c =>
            if z = '=' then
              if rest = [] ∧ c % 4 = 0 then some [a * 4 + b / 16, b % 16 * 16 + c / 4]
              else none
            else
              match b64charIndex z with
              | some d =>
                (b64decodeChars rest).map
                  (fun tl => (a * 4 + b / 16) :: (b % 16 * 16 + c / 4) :: (c % 4 * 64 + d) :: tl)
              | none => none
          | none => none
      | _, _ => none
  | _ => none

def b64urlDecode (s : String) : Option (List Nat) := b64decodeChars s.data

/-- Python `str.split(sep)` for a single-character separator: splits on
every occurrence, always yields at least one (possibly empty) part. -/
def pySplitGo (sep : Char) : List Char → List Char → List String
  | [], cur => [String.mk cur]
  | c :: cs, cur =>
      if c = sep then String.mk cur :: pySplitGo sep cs []
      else pySplitGo sep cs (cur ++ [c])

def pySplit (sep : Char) (s : String) : List String := pySplitGo sep s.data []

/-- 32-bit word arithmetic for SHA-256. -/
def w32 (n : Nat) : Nat := n % 4294967296

def rotr32 (n x : Nat) : Nat := w32 ((x >>> n) ||| (x <<< (32 - n)))

/-- SHA-256 working state (eight 32-bit words). -/
structure Sha256State where
  a : Nat
  b : Nat
  c : Nat
  d : Nat
  e : Nat
  f : Nat
  g : Nat
  h : Nat

def sha256init : Sha256State :=
  ⟨1779033703, 3144134277, 1013904242, 2773480762,
   1359893119, 2600822924, 528734635, 1541459225⟩

def sha256K : List Nat :=
  [1116352408, 1899447441, 3049323471, 3921009573,
   961987163, 1508970993, 2453635748, 2870763221,
   3624381080, 310598401, 607225278, 1426881987,
   1925078388, 2162078206, 2614888103, 3248222580,
   3835390401, 4022224774, 264347078, 604807628,
   770255983, 1249150122, 1555081692, 1996064986,
   2554220882, 2821834349, 2952996808, 3210313671,
   3336571891, 3584528711, 113926993, 338241895,
   666307205, 773529912, 1294757372, 1396182291,
   1695183700, 1986661051, 2177026350, 2456956037,
   2730485921, 2820302411, 3259730800, 3345764771,
   3516065817, 3600352804, 4094571909, 275423344,
   430227734, 506948616, 659060556, 883997877,
   958139571, 1322822218, 1537002063, 1747873779,
   1955562222, 2024104815, 2227730452, 2361852424,
   2428436474, 2756734187, 3204031479, 3329325298]

/-- Big-endian 32-bit word from four bytes. -/
def wordOfBytes (bs : List Nat) (i : Nat) : Nat :=
  bs.getD (4 * i) 0 * 16777216 + bs.getD (4 * i + 1) 0 * 65536 +
  bs.getD (4 * i + 2) 0 * 256 + bs.getD (4 * i + 3) 0

/-- The 64-entry message schedule of one block. -/
def sha256Schedule (block : List Nat) : List Nat :=
  (List.range 64).foldl
    (fun ws t =>
      if t < 16 then ws ++ [wordOfBytes block t]
      else
        let w15 := ws.getD (t - 15) 0
        let w2 := ws.getD (t - 2) 0
        let s0 := (rotr32 7 w15) ^^^ (rotr32 18 w15) ^^^ (w15 >>> 3)
        let s1 := (rotr32 17 w2) ^^^ (rotr32 19 w2) ^^^ (w2 >>> 10)
        ws ++ [w32 (ws.getD (t - 16) 0 + s0 + ws.getD (t - 7) 0 + s1)])
    []

def sha256Round (st : Sha256State) (k w : Nat) : Sha256State :=
  let s1 := (rotr32 6 st.e) ^^^ (rotr32 11 st.e) ^^^ (rotr32 25 st.e)
  let ch := (st.e &&& st.f) ^^^ ((st.e ^^^ 4294967295) &&& st.g)
  let t1 := w32 (st.h + s1 + ch + k + w)
  let s0 := (rotr32 2 st.a) ^^^ (rotr32 13 st.a) ^^^ (rotr32 22 st.a)
  let mj := (st.a &&& st.b) ^^^ (st.a &&& st.c) ^^^ (st.b &&& st.c)
  let t2 := w32 (s0 + mj)
  ⟨w32 (t1 + t2), st.a, st.b, st.c, w32 (st.d + t1), st.e, st.f, st.g⟩

def sha256Compress (st : Sha256State) (block : List Nat) : Sha256State :=
  let ws := sha256Schedule block
  let fin := (List.range 64).foldl
    (fun s t => sha256Round s (sha256K.getD t 0) (ws.getD t 0)) st
  ⟨w32 (st.a + fin.a), w32 (st.b + fin.b), w32 (st.c + fin.c), w32 (st.d + fin.d),
   w32 (st.e + fin.e), w32 (st.f + fin.f), w32 (st.g + fin.g), w32 (st.h + fin.h)⟩

/-- SHA-256 padding: append 0x80, zeros to 56 mod 64, then the bit length
as eight big-endian bytes. -/
def sha256Pad (msg : List Nat) : List Nat :=
  let n := msg.length
  let zeros := (55 + 64 - n % 64) % 64
  let bitLen := 8 * n
  msg ++ [128] ++ List.replicate zeros 0 ++
    [bitLen / 72057594037927936 % 256, bitLen / 281474976710656 % 256,
     bitLen / 1099511627776 % 256, bitLen / 4294967296 % 256,
     bitLen / 16777216 % 256, bitLen / 65536 % 256,
     bitLen / 256 % 256, bitLen % 256]

def wordBytes (x : Nat) : List Nat :=
  [x / 16777216 % 256, x / 65536 % 256, x / 256 % 256, x % 256]

/-- SHA-256 digest of a byte list: 32 bytes. -/
def sha256 (msg : List Nat) : List Nat :=
  let padded := sha256Pad msg
  let nBlocks := padded.length / 64
  let fin := (List.range nBlocks).foldl
    (fun st i => sha256Compress st ((padded.drop (64 * i)).take 64)) sha256init
  wordBytes fin.a ++ wordBytes fin.b ++ wordBytes fin.c ++ wordBytes fin.d ++
  wordBytes fin.e ++ wordBytes fin.f ++ wordBytes fin.g ++ wordBytes fin.h

/-- Lowercase hex digit table used by `hexdigest()`. -/
def hexChars : List Char := "0123456789abcdef".data

def hexDigitChar (n : Nat) : Char := hexChars.getD (n % 16) '0'

/-- `hexdigest()` of a byte list: two lowercase hex chars per byte. -/
def bytesToHex (bs : List Nat) : String :=
  String.mk (bs.flatMap (fun b => [hexDigitChar (b / 16), hexDigitChar b]))

/-- HMAC-SHA256 (`hmac.new(key, msg, hashlib.sha256)`). -/
def hmacSha256 (key msg : List Nat) : List Nat :=
  let k0 := if key.length > 64 then sha256 key else key
  let kp := k0 ++ List.replicate (64 - k0.length) 0
  let ipad := kp.map (fun b => b ^^^ 54)
  let opad := kp.map (fun b => b ^^^ 92)
  sha256 (opad ++ sha256 (ipad ++ msg))

/-- `hmac.new(key, msg, hashlib.sha256).hexdigest()`. -/
def hmacSha256Hex (key msg : List Nat) : String := bytesToHex (hmacSha256 key msg)

/-! ## Token codec (`utils/token_manager.py`, `utils/token_generator.py`)

Configuration (`auth_bot/__init__.py`) is threaded as parameters: the
server secret `TOKEN_SECRET_KEY` and the time-to-live
`TOKEN_EXPIRY_HOURS` (imported as `TOKEN_TIMEOUT_HOURS` in
`token_manager.py`; default 6). -/

/-- The `token_data` dict built by `generate_token` (insertion order:
`user_id, plan_days, created_at, expires_at, uuid`). -/
structure TokenData where
  user_id : Nat
  plan_days : Nat
  created_at : Int
  expires_at : Int
  uuid : String
deriving Repr, DecidableEq

/-- One character of `json.dumps` string escaping (`ensure_ascii=True`):
quote, backslash and the common control characters get two-character
escapes, other controls and all non-ASCII become `\uXXXX` (with surrogate
pairs above the BMP). -/
def jsonEscapeChar (c : Char) : List Char :=
  let n := c.toNat
  let u4 := fun (m : Nat) =>
    ['\\', 'u', hexDigitChar (m / 4096), hexDigitChar (m / 256),
     hexDigitChar (m / 16), hexDigitChar m]
  if c = '"' then ['\\', '"']
  else if c = '\\' then ['\\', '\\']
  else if c = '\n' then ['\\', 'n']
  else if c = '\t' then ['\\', 't']
  else if c = '\r' then ['\\', 'r']
  else if n < 32 then u4 n
  else if n < 127 then [c]
  else if n ≤ 65535 then u4 n
  else u4 (55296 + (n - 65536) / 1024) ++ u4 (56320 + (n - 65536) % 1024)

def jsonEscape (s : String) : String := String.mk (s.data.flatMap jsonEscapeChar)

/-- `json.dumps(token_data)` with CPython's default separators
`(", ", ": ")` and the dict's insertion order. -/
def jsonDumpsTokenData (d : TokenData) : String :=
  "\x7b\"user_id\": " ++ toString d.user_id ++
  ", \"plan_days\": " ++ toString d.plan_days ++
  ", \"created_at\": " ++ toString d.created_at ++
  ", \"expires_at\": " ++ toString d.expires_at ++
  ", \"uuid\": \"" ++ jsonEscape d.uuid ++ "\"\x7d"

/-- `token_manager.generate_signature`: HMAC-SHA256 hex digest keyed with
the server secret. -/
def generate_signature (secret data : String) : String :=
  hmacSha256Hex (strToBytes secret) (strToBytes data)

/-- `token_manager.generate_token` (the construction in
`token_generator.generate_token` is character-identical): payload dict →
JSON → urlsafe base64 → `encoded ++ "." ++ hmac hex`.  `now` stands for
`int(time.time())`, `nonce` for `str(uuid.uuid4())`. -/
def generate_token (secret : String) (ttlHours : Nat) (user_id plan_days : Nat)
    (now : Int) (nonce : String) : String :=
  let td : TokenData := ⟨user_id, plan_days, now, now + ttlHours * 3600, nonce⟩
  let encoded := b64urlEncode (strToBytes (jsonDumpsTokenData td))
  encoded ++ "." ++ generate_signature secret encoded

/-- Digit-run parser used to invert the canonical payload serialization. -/
def parseDigits : List Char → Nat → Nat × List Char
  | c :: cs, acc =>
      if c.isDigit then parseDigits cs (acc * 10 + (c.toNat - 48)) else (acc, c :: cs)
  | [], acc => (acc, [])

def parseNatChars (s : List Char) : Option (Nat × List Char) :=
  match s with
  | c :: _ => if c.isDigit then some (parseDigits s 0) else none
  | [] => none

def parseIntChars (s : List Char) : Option (Int × List Char) :=
  match s with
  | '-' :: rest => (parseNatChars rest).map (fun p => (-(p.1 : Int), p.2))
  | _ => (parseNatChars s).map (fun p => ((p.1 : Int), p.2))

/-- Consume an exact literal. -/
def dropLit : List Char → List Char → Option (List Char)
  | [], s => some s
  | p :: ps, c :: cs => if c = p then dropLit ps cs else none
  | _ :: _, [] => none

/-- Consume a JSON string body up to the closing quote; fails on escape
sequences (the nonce emitted by `generate_token` is a plain UUID string,
so the canonical payload contains none). -/
def strUntilQuote : List Char → List Char → Option (List Char × List Char)
  | [], _ => none
  | '"' :: rest, acc => some (acc, rest)
  | '\\' :: _, _ => none
  | c :: rest, acc => strUntilQuote rest (acc ++ [c])

/-- Models `json.loads` restricted to the canonical payload shape that
`generate_token` emits; every other input fails, which `validate_token`
catches and collapses to `(False, None)`. -/
def parseTokenData (s : String) : Option TokenData := do
  let r0 ← dropLit "\x7b\"user_id\": ".data s.data
  let (uid, r1) ← parseNatChars r0
  let r2 ← dropLit ", \"plan_days\": ".data r1
  let (pd, r3) ← parseNatChars r2
  let r4 ← dropLit ", \"created_at\": ".data r3
  let (ca, r5) ← parseIntChars r4
  let r6 ← dropLit ", \"expires_at\": ".data r5
  let (ea, r7) ← parseIntChars r6
  let r8 ← dropLit ", \"uuid\": \"".data r7
  let (uu, r9) ← strUntilQuote r8 []
  let r10 ← dropLit "\x7d".data r9
  if r10 = [] then some ⟨uid, pd, ca, ea, String.mk uu⟩ else none

/-- The decode half of `validate_token`: urlsafe base64 decode, UTF-8
decode, JSON parse. -/
def decode_token_payload (encoded : String) : Option TokenData :=
  (b64urlDecode encoded).bind fun bs =>
    (bytesToStr bs).bind fun tj => parseTokenData tj

/-- `token_manager.validate_token`: split on `"."` (exactly two parts),
constant-time signature comparison (`hmac.compare_digest`, content
equality), decode, then the expiry gate
`token_data.get("expires_at", 0) < current_time`.  All exception paths
return `(False, None)` via the enclosing `try/except`. -/
def validate_token (secret token : String) (now : Int) : Bool × Option TokenData :=
  match pySplit '.' token with
  | [encoded, signature] =>
      if signature = generate_signature secret encoded then
        match decode_token_payload encoded with
        | some td => if td.expires_at < now then (false, none) else (true, some td)
        | none => (false, none)
      else (false, none)
  | _ => (false, none)

/-- `token_manager.is_token_expired`: expired iff
`current_time > token_time + TTL*3600` (boundary instant not expired). -/
def is_token_expired (ttlHours : Nat) (token_time now : Int) : Bool :=
  now > token_time + ttlHours * 3600

/-- Modelled from the spec (§6 "Persisted token format"), for comparison
with `generate_token`: the spec names the payload keys `issued_at` and
`nonce` where the code writes `created_at` and `uuid`. -/
def spec_token_format (secret : String) (ttlHours : Nat) (user_id plan_days : Nat)
    (now : Int) (nonce : String) : String :=
  let payload :=
    "\x7b\"user_id\": " ++ toString user_id ++
    ", \"plan_days\": " ++ toString plan_days ++
    ", \"issued_at\": " ++ toString now ++
    ", \"expires_at\": " ++ toString (now + ttlHours * 3600) ++
    ", \"nonce\": \"" ++ jsonEscape nonce ++ "\"\x7d"
  let encoded := b64urlEncode (strToBytes payload)
  encoded ++ "." ++ hmacSha256Hex (strToBytes secret) (strToBytes encoded)

/-! ## Persisted single-use tokens (`utils/token_generator.py`)

`token_generator.py` talks to `auth_bot/database/db_handler.py`, which is
not part of the source tree; the three row operations `add_token`,
`get_token` and `use_token` are modelled from the spec (§4.1: "may persist
`{token, user_id, expires_at}` for later single-use enforcement", used flag
set on first successful redemption). -/

/-- A persisted token row: `{token → (user_id, expires_at, is_used)}`. -/
structure TokRow where
  user_id : Nat
  expires_at : Int
  is_used : Bool
deriving Repr, DecidableEq

def TokenDB : Type := String → Option TokRow

/-- Modelled from the spec: `db.add_token(token, user_id, expires_at)`
inserts an unused row keyed by the token string. -/
def dbAddToken (db : TokenDB) (tok : String) (uid : Nat) (exp : Int) : TokenDB :=
  fun t => if t = tok then some ⟨uid, exp, false⟩ else db t

/-- Modelled from the spec: `db.get_token(token)` row lookup. -/
def dbGetToken (db : TokenDB) (tok : String) : Option TokRow := db tok

/-- Modelled from the spec: `db.use_token(token)` marks the row used. -/
def dbUseToken (db : TokenDB) (tok : String) : TokenDB :=
  fun t => if t = tok then (db t).map (fun r => { r with is_used := true }) else db t

/-- `token_generator.generate_token`: builds the same signed string as
`token_manager.generate_token` and persists `{token, user_id, expires_at}`
via `db.add_token`. -/
def tg_generate_token (secret : String) (ttlHours : Nat) (db : TokenDB)
    (user_id plan_days : Nat) (now : Int) (nonce : String) : String × TokenDB :=
  let tok := generate_token secret ttlHours user_id plan_days now nonce
  (tok, dbAddToken db tok user_id (now + ttlHours * 3600))

/-- `token_generator.validate_token`: DB lookup by token value, expiry gate
`datetime.now() > expires_at`, used gate, then `invalidate_token` marks the
row used.  Returns the persisted row on success. -/
def tg_validate_token (db : TokenDB) (tok : String) (now : Int) :
    TokenDB × Bool × Option TokRow :=
  match dbGetToken db tok with
  | none => (db, false, none)
  | some row =>
      if now > row.expires_at then (db, false, none)
      else if row.is_used then (db, false, none)
      else (dbUseToken db tok, true, some row)

/-! ## Subscription store, cache and lifecycle (`utils/subscription_manager.py`)

Configuration: `AUTO_REVOKE_EXPIRED`, `FREE_TIER_FALLBACK` and
`FREE_TIER_COMMANDS` (`auth_bot/__init__.py` parses the latter into a
`list` at import time). -/

structure SMConfig where
  autoRevoke : Bool
  freeTierFallback : Bool
  freeCmds : List String
deriving Repr

/-- The value of a subscription dict's `"commands"` key: either the string
`"*"` or a list of command names. -/
inductive CmdVal
  | all
  | list (cmds : List String)
deriving Repr, DecidableEq

/-- A subscription row as returned by `db.get_user_subscription`
(modelled from the spec: plan tier, start/end time, active status). -/
structure SubRow where
  user_id : Nat
  plan_type : String
  is_active : Bool
  start_date : Int
  end_date : Option Int
deriving Repr, DecidableEq

/-- The subscription dict shape used throughout `subscription_manager.py`. -/
structure SubDict where
  user_id : Nat
  plan : String
  is_active : Bool
  start_date : Int
  expiry_date : Option Int
  commands : CmdVal
deriving Repr, DecidableEq

/-- Store plus in-process cache (`subscription_cache` module global). -/
structure SMState where
  db : List (Nat × SubRow)
  cache : Nat → Option SubDict

def cacheUpdate (cache : Nat → Option SubDict) (uid : Nat) (v : Option SubDict) :
    Nat → Option SubDict :=
  fun u => if u = uid then v else cache u

/-- Modelled from the spec: `db.update_subscription(user_id, is_active=b)`
flips the row's active flag; fails (returns `False`) when no row exists. -/
def dbUpdateSubscriptionActive (st : SMState) (uid : Nat) (active : Bool) :
    SMState × Bool :=
  match st.db.lookup uid with
  | none => (st, false)
  | some _ =>
      let db2 := st.db.map
        (fun p => if p.1 = uid then (p.1, { p.2 with is_active := active }) else p)
      ({ st with db := db2 }, true)

/-- Modelled from the spec: `db.add_subscription(user_id, plan_type,
plan_days)` upserts an active row running from now for `plan_days` days. -/
def dbAddSubscription (st : SMState) (uid : Nat) (plan_type : String)
    (plan_days : Int) (now : Int) : SMState × Bool :=
  let row : SubRow := ⟨uid, plan_type, true, now, some (now + plan_days * 86400)⟩
  match st.db.lookup uid with
  | none => ({ st with db := st.db ++ [(uid, row)] }, true)
  | some _ =>
      ({ st with db := st.db.map (fun p => if p.1 = uid then (p.1, row) else p) }, true)

/-- `subscription_manager.get_subscription` dict conversion (lines 85-98):
`commands` is `"*"` when active, else the free-tier list. -/
def rowToDict (cfg : SMConfig) (r : SubRow) : SubDict :=
  ⟨r.user_id, r.plan_type, r.is_active, r.start_date, r.end_date,
   if r.is_active then CmdVal.all else CmdVal.list cfg.freeCmds⟩

def sm_get_subscription (cfg : SMConfig) (st : SMState) (uid : Nat) : Option SubDict :=
  (st.db.lookup uid).map (rowToDict cfg)

/-- `subscription_manager.update_subscription` (line 101): derives
`plan_days = (expiry_date - start_date).days` — a `TypeError` when
`expiry_date` is `None`, caught by the enclosing `except`, which then
returns the input dict without having written the store — and otherwise
writes through `db.add_subscription`.  `Int.fdiv` mirrors
`timedelta.days`' floor. -/
def sm_update_subscription (st : SMState) (uid : Nat) (d : SubDict) (now : Int) :
    SMState × SubDict :=
  match d.expiry_date with
  | none => (st, d)
  | some e =>
      let plan_days := Int.fdiv (e - d.start_date) 86400
      ((dbAddSubscription st uid d.plan plan_days now).1, d)

/-- `subscription_manager.revoke_subscription`: store update to inactive,
then cache invalidation for that user when the store update succeeded. -/
def revoke_subscription (st : SMState) (uid : Nat) : SMState × Bool :=
  let st1 := (dbUpdateSubscriptionActive st uid false).1
  let success := (dbUpdateSubscriptionActive st uid false).2
  if success then ({ st1 with cache := cacheUpdate st1.cache uid none }, true)
  else (st1, success)

/-- `subscription_manager.update_user_subscription`: plan tier from the
day-count (`7/30/90 → basic/standard/premium`, anything else keeps the
initial `"free"`), additive extension while the current subscription is
active with a future expiry, write-through, cache refresh. -/
def update_user_subscription (cfg : SMConfig) (st : SMState) (uid : Nat)
    (plan_days : Nat) (now : Int) : SMState × SubDict :=
  let current := sm_get_subscription cfg st uid
  let plan_type :=
    if plan_days = 7 then "basic"
    else if plan_days = 30 then "standard"
    else if plan_days = 90 then "premium"
    else "free"
  let expiry_date : Int :=
    match current with
    | some c =>
        match c.is_active, c.expiry_date with
        | true, some e =>
            if e > now then e + (plan_days : Int) * 86400
            else now + (plan_days : Int) * 86400
        | _, _ => now + (plan_days : Int) * 86400
    | none => now + (plan_days : Int) * 86400
  let sd : SubDict := ⟨uid, plan_type, true, now, some expiry_date, CmdVal.all⟩
  let res := sm_update_subscription st uid sd now
  ({ res.1 with cache := cacheUpdate res.1.cache uid (some res.2) }, res.2)

/-- The free-tier default returned by `get_subscription_status` when no row
exists (`FREE_TIER_COMMANDS if FREE_TIER_COMMANDS else []` is the list
itself either way). -/
def freeDefaultDict (cfg : SMConfig) (uid : Nat) (now : Int) : SubDict :=
  ⟨uid, "free", true, now, none, CmdVal.list cfg.freeCmds⟩

/-- Outcome of the cache probe at the top of `get_subscription_status`
(lines 37-44): return the entry, fall through (optionally deleting an
entry that failed its own expiry check), or raise — comparing a `None`
expiry against `datetime.now()` is a `TypeError`. -/
inductive CacheStep
  | hit (e : SubDict)
  | miss (removeEntry : Bool)
  | crash
deriving Repr

def cache_step (st : SMState) (uid : Nat) (now : Int) : CacheStep :=
  match st.cache uid with
  | none => .miss false
  | some e =>
      if e.is_active then
        match e.expiry_date with
        | some T => if T > now then .hit e else .miss true
        | none => .crash
      else .miss false

/-- `subscription_manager.handle_expired_subscription`: under
`AUTO_REVOKE_EXPIRED` it revokes and clears the cache; under
`FREE_TIER_FALLBACK` it then builds the free-tier dict — whose
`commands` field evaluates `FREE_TIER_COMMANDS.split(",")`, an
`AttributeError` whenever the configured list is non-empty, because
`FREE_TIER_COMMANDS` is already a `list` — writes it through
`update_subscription` (a no-op for a `None` expiry, see
`sm_update_subscription`) and finally marks the row inactive.  The
returned flag records whether the call raised.  The expiry notification
is an external collaborator and not modelled. -/
def handle_expired_subscription (cfg : SMConfig) (st : SMState) (uid : Nat)
    (now : Int) : SMState × Bool :=
  if cfg.autoRevoke then
    let st1 := (revoke_subscription st uid).1
    let st2 := { st1 with cache := cacheUpdate st1.cache uid none }
    if cfg.freeTierFallback then
      if cfg.freeCmds ≠ [] then (st2, true)
      else
        let ftd : SubDict := ⟨uid, "free", true, now, none, CmdVal.list []⟩
        let st3 := (sm_update_subscription st2 uid ftd now).1
        ((dbUpdateSubscriptionActive st3 uid false).1, false)
    else
      ((dbUpdateSubscriptionActive st2 uid false).1, false)
  else (st, false)

/-- The per-row tail of `get_subscription_status` (lines 60-82 of
`subscription_manager.py`), with the recursive re-read abstracted as
`recurse`: expiry check against `now`, expired-row handling (an exception
there propagates), re-read after handling, and re-caching of any active
result. -/
def gss_row (cfg : SMConfig) (recurse : SMState → Option (SMState × SubDict))
    (st0 : SMState) (uid : Nat) (now : Int) (r : SubRow) :
    Option (SMState × SubDict) :=
  if (match r.end_date with | some T => decide (T < now) | none => false) then
    if (handle_expired_subscription cfg st0 uid now).2 then none
    else
      match recurse (handle_expired_subscription cfg st0 uid now).1 with
      | none => none
      | some q =>
          if q.2.is_active then
            some ({ q.1 with cache := cacheUpdate q.1.cache uid (some q.2) }, q.2)
          else some (q.1, q.2)
  else
    if (rowToDict cfg r).is_active then
      some ({ st0 with cache := cacheUpdate st0.cache uid (some (rowToDict cfg r)) },
        rowToDict cfg r)
    else some (st0, rowToDict cfg r)

/-- The store fetch of `get_subscription_status`: free-tier default when
no row exists, else the per-row tail. -/
def gss_store (cfg : SMConfig) (recurse : SMState → Option (SMState × SubDict))
    (st0 : SMState) (uid : Nat) (now : Int) : Option (SMState × SubDict) :=
  match st0.db.lookup uid with
  | none => some (st0, freeDefaultDict cfg uid now)
  | some r => gss_row cfg recurse st0 uid now r

/-- `subscription_manager.get_subscription_status`: cache probe, then the
store fetch; the recursive re-read at line 76 does not terminate when the
handler leaves the row expired, so it carries explicit fuel, `none`
standing for both a raised exception and non-termination. -/
def get_subscription_status (cfg : SMConfig) :
    Nat → SMState → Nat → Int → Option (SMState × SubDict)
  | 0, _, _, _ => none
  | fuel + 1, st, uid, now =>
    match cache_step st uid now with
    | .crash => none
    | .hit e => some (st, e)
    | .miss rm =>
      let st0 := if rm then { st with cache := cacheUpdate st.cache uid none } else st
      gss_store cfg (fun s => get_subscription_status cfg fuel s uid now) st0 uid now

/-- Modelled from the spec (§4.3): `db.get_expired_subscriptions()` —
rows with `status == active AND end_time < now`. -/
def db_get_expired_subscriptions (st : SMState) (now : Int) : List (Nat × SubRow) :=
  st.db.filter (fun p =>
    p.2.is_active && (match p.2.end_date with
      | some T => decide (T < now)
      | none => false))

/-- Loop body of `process_expired_subscriptions`: one handler call per
expired row; the enclosing `try/except` turns the first raised exception
into an early return of the users processed so far. -/
def pe_loop (cfg : SMConfig) :
    List (Nat × SubRow) → SMState → Int → List Nat → List Nat × SMState
  | [], st, _, acc => (acc, st)
  | (uid, _) :: rest, st, now, acc =>
    let st1 := (handle_expired_subscription cfg st uid now).1
    if (handle_expired_subscription cfg st uid now).2 then (acc, st1)
    else
      let st2 := { st1 with cache := cacheUpdate st1.cache uid none }
      pe_loop cfg rest st2 now (acc ++ [uid])

/-- `subscription_manager.process_expired_subscriptions`: fetches the
expired rows once, processes them in order, returns the list of processed
user ids (not a count). -/
def process_expired_subscriptions (cfg : SMConfig) (st : SMState) (now : Int) :
    List Nat × SMState :=
  pe_loop cfg (db_get_expired_subscriptions st now) st now []

/-- `subscription_manager.check_command_access`. -/
def check_command_access (cfg : SMConfig) (fuel : Nat) (st : SMState) (uid : Nat)
    (command : String) (now : Int) : Option (SMState × Bool) :=
  match get_subscription_status cfg fuel st uid now with
  | none => none
  | some (st1, sub) =>
      if sub.is_active then
        match sub.commands with
        | .all => some (st1, true)
        | .list cmds => some (st1, decide (command ∈ cmds))
      else some (st1, false)

/-! ## Free-tier command gate (`utils/auth_checker.py`, `__init__.py`)

`FREE_TIER_COMMANDS` is parsed to a `list` at import time (`__init__.py`
line 116) and yet `check_user_authorization` calls `.split(",")` on it; a
Python value that is either a string or a list is modelled explicitly so
the attribute lookup can be decided on the value's runtime type. -/

inductive PyStrOrList
  | str (s : String)
  | list (l : List String)
deriving Repr

/-- `__init__.py` line 116: the configured value is already a list. -/
def freeTierCommandsOfEnv (raw : String) : PyStrOrList :=
  .list (pySplit ',' raw)

/-- The expression `value.split(",")`: succeeds on a `str`, raises
`AttributeError` on a `list`. -/
def pyStrSplitMethod : PyStrOrList → Option (List String)
  | .str s => some (pySplit ',' s)
  | .list _ => none

/-- `auth_checker.check_user_authorization`: free-tier membership test
first (evaluating `FREE_TIER_COMMANDS.split(",")`), subscription-based
access second; no `try/except`, so the `AttributeError` propagates. -/
def check_user_authorization (freeTier : PyStrOrList) (cfg : SMConfig) (fuel : Nat)
    (st : SMState) (uid : Nat) (command : String) (now : Int) :
    Option (SMState × Bool) :=
  match pyStrSplitMethod freeTier with
  | none => none
  | some cmds =>
      if command ∈ cmds then some (st, true)
      else check_command_access cfg fuel st uid command now

/-! ## Handlers-side subscription store and payment processing
(`handlers/subscription.py`, `payment/payment_handler.py`)

This is the second, divergent subscription implementation the repository
carries (dict field `plan`/`plan_name` rather than `plan_type`); its store
rows and the `subscription_data` module-global cache are modelled
separately.  Plan day-counts `BASIC/STANDARD/PREMIUM_PLAN_DAYS` default to
7/30/90. -/

structure HSubRow where
  plan : String
  is_active : Bool
  start_date : Int
  end_date : Int
deriving Repr, DecidableEq

/-- A payment ledger row (`generate_payment_link` stores `pending`). -/
structure Payment where
  user_id : Nat
  plan_type : String
  plan_days : Nat
  status : String
deriving Repr, DecidableEq

/-- Payment-side state: ledger, handlers-side subscription rows, the
`subscription_data` cache, and a count of `db.add_token` calls made by
`process_payment` (the token value itself is incidental to the claims; the
source in fact stores an unawaited coroutine there, since the async
`token_generator.generate_token` is called without `await`). -/
structure PayState where
  payments : List (String × Payment)
  subs : List (Nat × HSubRow)
  hcache : Nat → Option HSubRow
  tokensAdded : Nat

/-- `handlers/subscription.py` lines 65-73: plan name from the day-count;
unmapped day-counts become `"Custom"`. -/
def plan_name_for_days (basicD stdD premD d : Nat) : String :=
  if d = basicD then "Basic"
  else if d = stdD then "Standard"
  else if d = premD then "Premium"
  else "Custom"

/-- Modelled from the spec (§4.2): `db.extend_subscription(user_id, days)`
adds `days` to the stored end time. -/
def db_extend_subscription (subs : List (Nat × HSubRow)) (uid days : Nat) :
    List (Nat × HSubRow) :=
  subs.map (fun p =>
    if p.1 = uid then (p.1, { p.2 with end_date := p.2.end_date + (days : Int) * 86400 })
    else p)

/-- Modelled from the spec: `db.add_subscription(user_id, plan_days,
plan_name)` upserts an active row from now for `plan_days` days. -/
def db_add_subscription_h (subs : List (Nat × HSubRow)) (uid days : Nat)
    (name : String) (now : Int) : List (Nat × HSubRow) :=
  let row : HSubRow := ⟨name, true, now, now + (days : Int) * 86400⟩
  match subs.lookup uid with
  | none => subs ++ [(uid, row)]
  | some _ => subs.map (fun p => if p.1 = uid then (p.1, row) else p)

def hcacheUpdate (c : Nat → Option HSubRow) (uid : Nat) (v : Option HSubRow) :
    Nat → Option HSubRow :=
  fun u => if u = uid then v else c u

/-- `handlers/subscription.py  update_subscription`: extends through
`db.extend_subscription` when the current subscription is active, else
adds a fresh row; on success re-fetches and refreshes the
`subscription_data` cache. -/
def h_update_subscription (basicD stdD premD : Nat) (st : PayState) (uid : Nat)
    (plan_days : Nat) (now : Int) : PayState × Bool :=
  let plan_name := plan_name_for_days basicD stdD premD plan_days
  let isActive := match st.subs.lookup uid with
    | some cur => cur.is_active
    | none => false
  let subs2 :=
    if isActive then db_extend_subscription st.subs uid plan_days
    else db_add_subscription_h st.subs uid plan_days plan_name now
  let st2 := { st with subs := subs2 }
  match subs2.lookup uid with
  | some u => ({ st2 with hcache := hcacheUpdate st2.hcache uid (some u) }, true)
  | none => (st2, true)

/-- Python `str.lower()` over the ASCII range (the status vocabulary is
ASCII). -/
def pyLower (s : String) : String :=
  String.mk (s.data.map (fun c =>
    if 'A' ≤ c ∧ c ≤ 'Z' then Char.ofNat (c.toNat + 32) else c))

/-- Modelled from the spec: `db.update_payment_status(payment_id, status)`
is a plain status write on the ledger row (its return value is ignored by
`process_payment`). -/
def db_update_payment_status (pays : List (String × Payment)) (pid status : String) :
    List (String × Payment) :=
  pays.map (fun p => if p.1 = pid then (p.1, { p.2 with status := status }) else p)

/-- `payment_handler.process_payment`: writes the incoming status
unconditionally, and whenever that status is `"success"` re-derives the
day-count from the stored `plan_type` (`basic/standard/premium →
30/90/180`), issues a token and extends the subscription — with **no**
check that the payment was still `pending`.  `user_id = 0` and an empty
`plan_type` model Python falsiness of `not user_id or not plan_type`. -/
def process_payment (basicD stdD premD : Nat) (st : PayState) (pid status : String)
    (now : Int) : PayState × Bool :=
  let st1 := { st with payments := db_update_payment_status st.payments pid status }
  if pyLower status ≠ "success" then (st1, false)
  else
    match st1.payments.lookup pid with
    | none => (st1, false)
    | some pay =>
        if pay.user_id = 0 ∨ pay.plan_type = "" then (st1, false)
        else
          let planDays :=
            if pay.plan_type = "basic" then some 30
            else if pay.plan_type = "standard" then some 90
            else if pay.plan_type = "premium" then some 180
            else none
          match planDays with
          | none => (st1, false)
          | some pd =>
              let st2 := { st1 with tokensAdded := st1.tokensAdded + 1 }
              ((h_update_subscription basicD stdD premD st2 pay.user_id pd now).1, true)

/-! ## Supporting lemmas: separator-freeness of the two token halves,
splitting, and digest length. -/

lemma getD_mem_or_default {α : Type} (l : List α) (i : Nat) (d : α) :
    l.getD i d ∈ l ∨ l.getD i d = d := by
  induction l generalizing i with
  | nil => right; cases i <;> rfl
  | cons a t ih =>
    cases i with
    | zero => left; simp [List.getD]
    | succ j =>
      have h := ih j
      simp only [List.getD] at h ⊢
      rcases h with h | h
      · left; exact List.mem_cons_of_mem _ h
      · right; exact h

lemma hexDigitChar_ne_dot (n : Nat) : hexDigitChar n ≠ '.' := by
  have h := getD_mem_or_default hexChars (n % 16) '0'
  have hnot : ('.' : Char) ∉ hexChars := by decide
  rcases h with h | h
  · intro he
    rw [show hexDigitChar n = hexChars.getD (n % 16) '0' from rfl] at he
    exact hnot (he ▸ h)
  · intro he
    rw [show hexDigitChar n = hexChars.getD (n % 16) '0' from rfl] at he
    rw [he] at h
    exact absurd h (by decide)

lemma no_dot_bytesToHex (bs : List Nat) : '.' ∉ (bytesToHex bs).data := by
  intro hmem
  rw [show (bytesToHex bs).data = bs.flatMap (fun b => [hexDigitChar (b / 16), hexDigitChar b]) from rfl] at hmem
  rcases List.mem_flatMap.mp hmem with ⟨b, _, hb⟩
  simp only [List.mem_cons, List.not_mem_nil, or_false] at hb
  rcases hb with h | h
  · exact hexDigitChar_ne_dot _ h.symm
  · exact hexDigitChar_ne_dot _ h.symm

lemma no_dot_signature (secret data : String) :
    '.' ∉ (generate_signature secret data).data :=
  no_dot_bytesToHex _

lemma b64char_ne_dot (n : Nat) : b64char n ≠ '.' := by
  have h := getD_mem_or_default b64alphabet n 'A'
  have hnot : ('.' : Char) ∉ b64alphabet := by decide
  rcases h with h | h
  · intro he
    rw [show b64char n = b64alphabet.getD n 'A' from rfl] at he
    exact hnot (he ▸ h)
  · intro he
    rw [show b64char n = b64alphabet.getD n 'A' from rfl] at he
    rw [he] at h
    exact absurd h (by decide)

lemma no_dot_b64encodeBytes (bs : List Nat) : '.' ∉ b64encodeBytes bs := by
  induction bs using b64encodeBytes.induct with
  | case1 => simp [b64encodeBytes]
  | case2 a =>
    intro h
    simp only [b64encodeBytes, List.mem_cons, List.not_mem_nil, or_false] at h
    rcases h with h | h | h | h
    · exact b64char_ne_dot _ h.symm
    · exact b64char_ne_dot _ h.symm
    · simp at h
    · simp at h
  | case3 a b =>
    intro h
    simp only [b64encodeBytes, List.mem_cons, List.not_mem_nil, or_false] at h
    rcases h with h | h | h | h
    · exact b64char_ne_dot _ h.symm
    · exact b64char_ne_dot _ h.symm
    · exact b64char_ne_dot _ h.symm
    · simp at h
  | case4 a b c rest ih =>
    intro h
    simp only [b64encodeBytes, List.mem_cons] at h
    rcases h with h | h | h | h | h
    · exact b64char_ne_dot _ h.symm
    · exact b64char_ne_dot _ h.symm
    · exact b64char_ne_dot _ h.symm
    · exact b64char_ne_dot _ h.symm
    · exact ih h

lemma no_dot_b64urlEncode (bs : List Nat) : '.' ∉ (b64urlEncode bs).data :=
  no_dot_b64encodeBytes bs

lemma pySplitGo_no_sep (sep : Char) (m cur : List Char) (h : sep ∉ m) :
    pySplitGo sep m cur = [String.mk (cur ++ m)] := by
  induction m generalizing cur with
  | nil => simp [pySplitGo]
  | cons c cs ih =>
    have hc : c ≠ sep := fun he => h (he ▸ List.mem_cons_self c cs)
    have hcs : sep ∉ cs := fun hm => h (List.mem_cons_of_mem _ hm)
    simp only [pySplitGo, if_neg hc]
    rw [ih (cur ++ [c]) hcs]
    simp

lemma pySplitGo_mid (sep : Char) (a b cur : List Char)
    (ha : sep ∉ a) (hb : sep ∉ b) :
    pySplitGo sep (a ++ sep :: b) cur = [String.mk (cur ++ a), String.mk b] := by
  induction a generalizing cur with
  | nil =>
    simp only [List.nil_append, pySplitGo, if_pos rfl]
    rw [pySplitGo_no_sep sep b [] hb]
    simp
  | cons c cs ih =>
    have hc : c ≠ sep := fun he => ha (he ▸ List.mem_cons_self c cs)
    have hcs : sep ∉ cs := fun hm => ha (List.mem_cons_of_mem _ hm)
    rw [show (c :: cs) ++ sep :: b = c :: (cs ++ sep :: b) from rfl]
    simp only [pySplitGo, if_neg hc]
    rw [ih (cur ++ [c]) hcs]
    simp

lemma pySplit_two (a b : String) (ha : '.' ∉ a.data) (hb : '.' ∉ b.data) :
    pySplit '.' (a ++ "." ++ b) = [a, b] := by
  have hdata : (a ++ "." ++ b).data = a.data ++ '.' :: b.data := by
    rw [String.data_append, String.data_append]
    show a.data ++ ['.'] ++ b.data = a.data ++ '.' :: b.data
    simp
  rw [pySplit, hdata, pySplitGo_mid '.' a.data b.data [] ha hb]
  simp

/-- Strings of the form `front ++ "." ++ back` with dot-free fronts agree
on their fronts whenever they are equal. -/
lemma append_sep_front_inj {a a2 b b2 : List Char}
    (ha : '.' ∉ a) (ha2 : '.' ∉ a2)
    (h : a ++ '.' :: b = a2 ++ '.' :: b2) : a = a2 := by
  induction a generalizing a2 with
  | nil =>
    cases a2 with
    | nil => rfl
    | cons y ys =>
      simp only [List.nil_append, List.cons_append, List.cons.injEq] at h
      exact absurd (h.1 ▸ List.mem_cons_self y ys) ha2
  | cons x xs ih =>
    cases a2 with
    | nil =>
      simp only [List.cons_append, List.nil_append, List.cons.injEq] at h
      exact absurd (h.1 ▸ List.mem_cons_self x xs) ha
    | cons y ys =>
      simp only [List.cons_append, List.cons.injEq] at h
      have hxs : '.' ∉ xs := fun hm => ha (List.mem_cons_of_mem _ hm)
      have hys : '.' ∉ ys := fun hm => ha2 (List.mem_cons_of_mem _ hm)
      rw [h.1, ih hxs hys h.2]

lemma string_sep_front_inj (a b a2 b2 : String)
    (ha : '.' ∉ a.data) (ha2 : '.' ∉ a2.data)
    (h : a ++ "." ++ b = a2 ++ "." ++ b2) : a = a2 := by
  have hd : a.data ++ '.' :: b.data = a2.data ++ '.' :: b2.data := by
    have h1 : (a ++ "." ++ b).data = a.data ++ '.' :: b.data := by
      rw [String.data_append, String.data_append]
      show a.data ++ ['.'] ++ b.data = a.data ++ '.' :: b.data
      simp
    have h2 : (a2 ++ "." ++ b2).data = a2.data ++ '.' :: b2.data := by
      rw [String.data_append, String.data_append]
      show a2.data ++ ['.'] ++ b2.data = a2.data ++ '.' :: b2.data
      simp
    rw [← h1, ← h2, h]
  have heq := append_sep_front_inj ha ha2 hd
  cases a; cases a2
  exact congrArg String.mk heq

lemma bytesToHex_length (bs : List Nat) : (bytesToHex bs).length = 2 * bs.length := by
  induction bs with
  | nil => rfl
  | cons a t ih =>
    have : (bytesToHex (a :: t)).data =
        [hexDigitChar (a / 16), hexDigitChar a] ++ (bytesToHex t).data := rfl
    show (bytesToHex (a :: t)).data.length = 2 * (a :: t).length
    rw [this]
    have ih2 : (bytesToHex t).data.length = 2 * t.length := ih
    simp [ih2]
    omega

lemma sha256_length (msg : List Nat) : (sha256 msg).length = 32 := by
  simp [sha256, wordBytes]

lemma hmacSha256_length (k m : List Nat) : (hmacSha256 k m).length = 32 := by
  simp only [hmacSha256]
  exact sha256_length _

lemma signature_length (secret data : String) :
    (generate_signature secret data).length = 64 := by
  show (bytesToHex (hmacSha256 (strToBytes secret) (strToBytes data))).length = 64
  rw [bytesToHex_length, hmacSha256_length]

/-- `validate_token` written out over the split result (pure reassociation
of the definition, used to reason by cases). -/
lemma validate_token_eq_match (secret s : String) (now : Int) :
    validate_token secret s now =
      match pySplit '.' s with
      | [encoded, signature] =>
          if signature = generate_signature secret encoded then
            match decode_token_payload encoded with
            | some td => if td.expires_at < now then (false, none) else (true, some td)
            | none => (false, none)
          else (false, none)
      | _ => (false, none) := rfl

/-- Validating any correctly signed token reduces to decoding plus the
expiry gate. -/
lemma validate_token_wellformed (secret enc : String) (now : Int)
    (hnd : '.' ∉ enc.data) :
    validate_token secret (enc ++ "." ++ generate_signature secret enc) now =
      match decode_token_payload enc with
      | some td => if td.expires_at < now then (false, none) else (true, some td)
      | none => (false, none) := by
  rw [validate_token_eq_match,
      pySplit_two enc (generate_signature secret enc) hnd (no_dot_signature secret enc)]
  simp

lemma sm_update_subscription_snd (st : SMState) (uid : Nat) (d : SubDict) (now : Int) :
    (sm_update_subscription st uid d now).2 = d := by
  unfold sm_update_subscription
  cases h : d.expiry_date <;> simp [h]

/-- `List.lookup` through the per-key map used by the modelled store
updates. -/
lemma lookup_map_update (db : List (Nat × SubRow)) (uid : Nat) (g : SubRow → SubRow) :
    (db.map (fun p => if p.1 = uid then (p.1, g p.2) else p)).lookup uid =
      (db.lookup uid).map g := by
  induction db with
  | nil => rfl
  | cons kv t ih =>
    obtain ⟨k, v⟩ := kv
    by_cases h : k = uid
    · subst h
      simp only [List.map_cons]
      norm_num [List.lookup]
    · have h2 : (uid == k) = false := beq_eq_false_iff_ne.mpr (Ne.symm h)
      simp only [List.map_cons, if_neg h]
      simp only [List.lookup, h2, ih]

lemma validate_token_of_split (secret s a b : String) (now : Int)
    (hl : pySplit '.' s = [a, b]) :
    validate_token secret s now =
      if b = generate_signature secret a then
        match decode_token_payload a with
        | some td => if td.expires_at < now then (false, none) else (true, some td)
        | none => (false, none)
      else (false, none) := by
  rw [validate_token_eq_match, hl]

lemma validate_token_not_two (secret s : String) (now : Int)
    (hl : (pySplit '.' s).length ≠ 2) :
    validate_token secret s now = (false, none) := by
  rw [validate_token_eq_match]
  rcases hsp : pySplit '.' s with _ | ⟨a, _ | ⟨b, _ | ⟨c, t⟩⟩⟩
  · rfl
  · rfl
  · rw [hsp] at hl; simp at hl
  · rfl

/-- The encoded half of the reference token used by the closed instances
below: payload `{user_id: 1, plan_days: 7, created_at: 0,
expires_at: 21600, uuid: "abc"}` (six-hour TTL from epoch 0). -/
def tokEnc1 : String := b64urlEncode (strToBytes (jsonDumpsTokenData ⟨1, 7, 0, 21600, "abc"⟩))

/-- C2 — the claim's "bit-exact" format with payload keys `issued_at` and
`nonce` does not match the emitted token: the code writes the JSON keys
`created_at` and `uuid`, so already the base64 halves differ. -/
theorem token_format_spec_keys_cex :
    generate_token "k" 6 1 7 0 "abc" ≠ spec_token_format "k" 6 1 7 0 "abc" := by
  intro h
  have h2 : tokEnc1 ++ "." ++ generate_signature "k" tokEnc1 =
      b64urlEncode (strToBytes
        ("\x7b\"user_id\": 1, \"plan_days\": 7, \"issued_at\": 0, \"expires_at\": 21600, \"nonce\": \"abc\"\x7d")) ++
      "." ++ hmacSha256Hex (strToBytes "k") (strToBytes (b64urlEncode (strToBytes
        ("\x7b\"user_id\": 1, \"plan_days\": 7, \"issued_at\": 0, \"expires_at\": 21600, \"nonce\": \"abc\"\x7d")))) := h
  have heq := string_sep_front_inj _ _ _ _
    (no_dot_b64urlEncode _) (no_dot_b64urlEncode _) h2
  exact absurd heq (by decide)

/-- C2 (amended) — every issued token is bit-exactly
`base64url(json({user_id, plan_days, created_at, expires_at, uuid}))`
followed by `"."` and the lowercase hex HMAC-SHA256 of that base64url
string under the server secret, with `expires_at = created_at +
TOKEN_EXPIRY_HOURS*3600`; the payload keys are `created_at` and `uuid`,
not the spec's `issued_at` and `nonce`, and `json.dumps` uses the
separators `", "` and `": "` in dict insertion order. -/
theorem token_format_amended (secret : String) (ttl uid pd : Nat) (now : Int)
    (nonce : String) :
    generate_token secret ttl uid pd now nonce =
      b64urlEncode (strToBytes
        ("\x7b\"user_id\": " ++ toString uid ++
         ", \"plan_days\": " ++ toString pd ++
         ", \"created_at\": " ++ toString now ++
         ", \"expires_at\": " ++ toString (now + ttl * 3600) ++
         ", \"uuid\": \"" ++ jsonEscape nonce ++ "\"\x7d")) ++ "." ++
      generate_signature secret (b64urlEncode (strToBytes
        ("\x7b\"user_id\": " ++ toString uid ++
         ", \"plan_days\": " ++ toString pd ++
         ", \"created_at\": " ++ toString now ++
         ", \"expires_at\": " ++ toString (now + ttl * 3600) ++
         ", \"uuid\": \"" ++ jsonEscape nonce ++ "\"\x7d"))) := rfl

/-- C5 — counterexample to strict-boundary expiry: at the exact instant
`now = expires_at` (21600 = 0 + 6*3600) validation still succeeds, because
the gate in `validate_token` is `expires_at < now`; the claim's
"`now >= expires_at` ⇒ validation fails" is false at this input. -/
theorem token_expiry_boundary_cex :
    validate_token "k" (generate_token "k" 6 1 7 0 "abc") 21600 =
      (true, some ⟨1, 7, 0, 21600, "abc"⟩) := by
  have h : generate_token "k" 6 1 7 0 "abc" =
      tokEnc1 ++ "." ++ generate_signature "k" tokEnc1 := rfl
  rw [h, validate_token_wellformed "k" tokEnc1 21600 (no_dot_b64urlEncode _)]
  decide

/-- C5 (amended) — the expiry comparison excludes validity only strictly
after expiry: a well-formed token (correct signature, decodable payload)
validates successfully iff `now ≤ expires_at`, so the boundary instant
`now = expires_at` is still valid; equally, `is_token_expired` reports
expiry only for `now > token_time + TTL*3600`. -/
theorem token_expiry_strictness_amended (secret s enc sig : String) (now : Int)
    (td : TokenData)
    (hsplit : pySplit '.' s = [enc, sig])
    (hsig : sig = generate_signature secret enc)
    (hdec : decode_token_payload enc = some td) :
    ((validate_token secret s now).1 = true ↔ now ≤ td.expires_at) ∧
    (∀ ttl : Nat, ∀ t : Int,
      is_token_expired ttl t now = false ↔ now ≤ t + ttl * 3600) := by
  constructor
  · rw [validate_token_of_split secret s enc sig now hsplit, if_pos hsig, hdec]
    show (if td.expires_at < now then ((false, none) : Bool × Option TokenData)
          else (true, some td)).1 = true ↔ now ≤ td.expires_at
    by_cases h : td.expires_at < now
    · rw [if_pos h]
      constructor
      · intro hh; exact absurd hh (by simp)
      · intro hh; exact absurd h (by omega)
    · rw [if_neg h]
      constructor
      · intro _; omega
      · intro _; rfl
  · intro ttl t
    unfold is_token_expired
    constructor
    · intro hh
      simp only [decide_eq_false_iff_not] at hh
      omega
    · intro hh
      simp only [decide_eq_false_iff_not]
      omega

/-- Witness for the amended C5 theorem at the reference token and the
boundary instant. -/
theorem token_expiry_strictness_amended_witness :
    ((validate_token "k" (tokEnc1 ++ "." ++ generate_signature "k" tokEnc1) 21600).1 = true ↔
      (21600 : Int) ≤ (⟨1, 7, 0, 21600, "abc"⟩ : TokenData).expires_at) ∧
    (∀ ttl : Nat, ∀ t : Int,
      is_token_expired ttl t 21600 = false ↔ (21600 : Int) ≤ t + ttl * 3600) :=
  token_expiry_strictness_amended "k" (tokEnc1 ++ "." ++ generate_signature "k" tokEnc1)
    tokEnc1 (generate_signature "k" tokEnc1) 21600 ⟨1, 7, 0, 21600, "abc"⟩
    (pySplit_two tokEnc1 (generate_signature "k" tokEnc1)
      (no_dot_b64urlEncode _) (no_dot_signature _ _))
    rfl
    (by decide)

/-- C6 — validation fails closed: every outcome is either a success with a
payload or exactly `(false, none)`; a string that does not split into
exactly a data part and a signature part, a signature mismatch, an
undecodable payload, an expired payload, and (on the persisted path) an
already-used token each yield `(false, none)` — never an exception, and
never a fragment of payload data. -/
theorem validate_fails_closed (secret s : String) (now : Int) (db : TokenDB) :
    ((validate_token secret s now = (false, none)) ∨
      ∃ td, validate_token secret s now = (true, some td)) ∧
    ((pySplit '.' s).length ≠ 2 → validate_token secret s now = (false, none)) ∧
    (∀ enc sig, pySplit '.' s = [enc, sig] →
      sig ≠ generate_signature secret enc →
      validate_token secret s now = (false, none)) ∧
    (∀ enc sig, pySplit '.' s = [enc, sig] →
      decode_token_payload enc = none →
      validate_token secret s now = (false, none)) ∧
    (∀ enc sig td, pySplit '.' s = [enc, sig] →
      decode_token_payload enc = some td → td.expires_at < now →
      validate_token secret s now = (false, none)) ∧
    (∀ row, db s = some row → row.is_used = true →
      tg_validate_token db s now = (db, false, none)) := by
  refine ⟨?_, ?_, ?_, ?_, ?_, ?_⟩
  · by_cases hl : (pySplit '.' s).length = 2
    · rcases hsp : pySplit '.' s with _ | ⟨a, _ | ⟨b, _ | ⟨c, t⟩⟩⟩
      · rw [hsp] at hl; simp at hl
      · rw [hsp] at hl; simp at hl
      · rw [validate_token_of_split secret s a b now hsp]
        by_cases hs : b = generate_signature secret a
        · rw [if_pos hs]
          cases hd : decode_token_payload a with
          | none => exact Or.inl rfl
          | some td =>
            by_cases he : td.expires_at < now
            · left
              show (if td.expires_at < now then ((false, none) : Bool × Option TokenData)
                    else (true, some td)) = (false, none)
              rw [if_pos he]
            · right
              refine ⟨td, ?_⟩
              show (if td.expires_at < now then ((false, none) : Bool × Option TokenData)
                    else (true, some td)) = (true, some td)
              rw [if_neg he]
        · rw [if_neg hs]; exact Or.inl rfl
      · rw [hsp] at hl; simp at hl
    · exact Or.inl (validate_token_not_two secret s now hl)
  · exact validate_token_not_two secret s now
  · intro enc sig hsp hs
    rw [validate_token_of_split secret s enc sig now hsp, if_neg hs]
  · intro enc sig hsp hdec
    rw [validate_token_of_split secret s enc sig now hsp, hdec]
    by_cases hs : sig = generate_signature secret enc
    · rw [if_pos hs]
    · rw [if_neg hs]
  · intro enc sig td hsp hdec hexp
    rw [validate_token_of_split secret s enc sig now hsp, hdec]
    by_cases hs : sig = generate_signature secret enc
    · rw [if_pos hs]
      show (if td.expires_at < now then ((false, none) : Bool × Option TokenData)
            else (true, some td)) = (false, none)
      rw [if_pos hexp]
    · rw [if_neg hs]
  · intro row hrow hused
    unfold tg_validate_token dbGetToken
    rw [hrow]
    show (if now > row.expires_at then (db, false, none)
          else if row.is_used = true then (db, false, none)
          else (dbUseToken db s, true, some row)) = (db, false, none)
    by_cases hexp : now > row.expires_at
    · rw [if_pos hexp]
    · rw [if_neg hexp, if_pos hused]

/-- Witness for the fail-closed theorem: each failure cause exercised on a
concrete input (no separator; a valid-format token with a wrong signature;
a signature-correct token with an expired payload; a persisted used row). -/
theorem validate_fails_closed_witness :
    validate_token "k" "nodotstring" 5 = (false, none) ∧
    validate_token "k" (tokEnc1 ++ "." ++ "zz") 5 = (false, none) ∧
    validate_token "k" (tokEnc1 ++ "." ++ generate_signature "k" tokEnc1) 21601 =
      (false, none) ∧
    tg_validate_token (fun t => if t = "tok" then some ⟨1, 99, true⟩ else none) "tok" 5 =
      ((fun t => if t = "tok" then some ⟨1, 99, true⟩ else none), false, none) := by
  have hsplit1 : pySplit '.' (tokEnc1 ++ "." ++ "zz") = [tokEnc1, "zz"] :=
    pySplit_two _ _ (no_dot_b64urlEncode _) (by decide)
  have hsplit2 : pySplit '.' (tokEnc1 ++ "." ++ generate_signature "k" tokEnc1) =
      [tokEnc1, generate_signature "k" tokEnc1] :=
    pySplit_two _ _ (no_dot_b64urlEncode _) (no_dot_signature _ _)
  refine ⟨?_, ?_, ?_, ?_⟩
  · exact (validate_fails_closed "k" "nodotstring" 5 (fun _ => none)).2.1 (by decide)
  · refine (validate_fails_closed "k" (tokEnc1 ++ "." ++ "zz") 5
      (fun _ => none)).2.2.1 tokEnc1 "zz" hsplit1 ?_
    intro h
    have hlen := congrArg String.length h
    rw [signature_length] at hlen
    exact absurd hlen (by decide)
  · exact (validate_fails_closed "k" (tokEnc1 ++ "." ++ generate_signature "k" tokEnc1)
      21601 (fun _ => none)).2.2.2.2.1 tokEnc1 (generate_signature "k" tokEnc1)
      ⟨1, 7, 0, 21600, "abc"⟩ hsplit2 (by decide) (by decide)
  · exact (validate_fails_closed "k" "tok" 5
      (fun t => if t = "tok" then some ⟨1, 99, true⟩ else none)).2.2.2.2.2
      ⟨1, 99, true⟩ (by decide) rfl

/-- C1 — a freshly issued token validates successfully exactly once before
its expiry: the first `validate_token` call on the persisted path returns
`ok = true` with the stored row (and marks it used), and the second call
on the same token against the resulting store returns `(false, none)`. -/
theorem token_single_use (secret : String) (ttl : Nat) (db : TokenDB)
    (uid pd : Nat) (t0 now : Int) (nonce : String)
    (h : now ≤ t0 + (ttl : Int) * 3600) :
    ((tg_validate_token (tg_generate_token secret ttl db uid pd t0 nonce).2
        (tg_generate_token secret ttl db uid pd t0 nonce).1 now).2 =
      (true, some ⟨uid, t0 + (ttl : Int) * 3600, false⟩)) ∧
    ((tg_validate_token
        (tg_validate_token (tg_generate_token secret ttl db uid pd t0 nonce).2
          (tg_generate_token secret ttl db uid pd t0 nonce).1 now).1
        (tg_generate_token secret ttl db uid pd t0 nonce).1 now).2 =
      (false, none)) := by
  have hexp : ¬ now > t0 + (ttl : Int) * 3600 := not_lt.mpr h
  constructor
  · simp [tg_generate_token, tg_validate_token, dbGetToken, dbAddToken, hexp]
  · simp [tg_generate_token, tg_validate_token, dbGetToken, dbAddToken, dbUseToken, hexp]

/-- Witness for the single-use theorem: user 1, 7 plan-days, issued at
epoch 0 with a six-hour TTL, validated twice at time 100. -/
theorem token_single_use_witness :
    ((tg_validate_token (tg_generate_token "k" 6 (fun _ => none) 1 7 0 "n").2
        (tg_generate_token "k" 6 (fun _ => none) 1 7 0 "n").1 100).2 =
      (true, some ⟨1, 0 + (6 : Int) * 3600, false⟩)) ∧
    ((tg_validate_token
        (tg_validate_token (tg_generate_token "k" 6 (fun _ => none) 1 7 0 "n").2
          (tg_generate_token "k" 6 (fun _ => none) 1 7 0 "n").1 100).1
        (tg_generate_token "k" 6 (fun _ => none) 1 7 0 "n").1 100).2 =
      (false, none)) :=
  token_single_use "k" 6 (fun _ => none) 1 7 0 100 "n" (by norm_num)

/-- C4 — extension law of `update_user_subscription`: while the stored
subscription is active with a future end time `T`, granting `d` days
yields `expiry_date = T + d` days; for an inactive, expired or absent
subscription it yields `expiry_date = now + d` days (a single `now` stands
for all the `datetime.now()` reads, so the clock tolerance is exact). -/
theorem subscription_extension_law (cfg : SMConfig) (st : SMState)
    (uid plan_days : Nat) (now : Int) :
    (∀ r T, st.db.lookup uid = some r → r.is_active = true →
      r.end_date = some T → now < T →
      (update_user_subscription cfg st uid plan_days now).2.expiry_date =
        some (T + (plan_days : Int) * 86400)) ∧
    ((st.db.lookup uid = none ∨
        ∃ r, st.db.lookup uid = some r ∧
          (r.is_active = false ∨ r.end_date = none ∨
            ∃ T, r.end_date = some T ∧ T ≤ now)) →
      (update_user_subscription cfg st uid plan_days now).2.expiry_date =
        some (now + (plan_days : Int) * 86400)) := by
  constructor
  · intro r T hr hact hend hT
    simp [update_user_subscription, sm_get_subscription, sm_update_subscription_snd,
      rowToDict, hr, hact, hend, hT]
  · intro hcase
    rcases hcase with hnone | ⟨r, hr, hrest⟩
    · simp [update_user_subscription, sm_get_subscription, sm_update_subscription_snd, hnone]
    · rcases hrest with hina | hendn | ⟨T, hend, hTle⟩
      · simp [update_user_subscription, sm_get_subscription, sm_update_subscription_snd,
          rowToDict, hr, hina]
      · cases hact : r.is_active <;>
          simp [update_user_subscription, sm_get_subscription, sm_update_subscription_snd,
            rowToDict, hr, hact, hendn]
      · have hTnot : ¬ T > now := not_lt.mpr hTle
        cases hact : r.is_active <;>
          simp [update_user_subscription, sm_get_subscription, sm_update_subscription_snd,
            rowToDict, hr, hact, hend, hTnot]

/-- Witness for the extension law: an active row ending at 1000 extended
by 7 days at time 500, and the absent-row case granted at time 500. -/
theorem subscription_extension_law_witness :
    ((update_user_subscription ⟨true, true, ["help", "start"]⟩
        ⟨[(1, ⟨1, "basic", true, 0, some 1000⟩)], fun _ => none⟩
        1 7 500).2.expiry_date = some (1000 + (7 : Int) * 86400)) ∧
    ((update_user_subscription ⟨true, true, ["help", "start"]⟩
        ⟨[], fun _ => none⟩ 1 7 500).2.expiry_date =
      some (500 + (7 : Int) * 86400)) :=
  ⟨(subscription_extension_law ⟨true, true, ["help", "start"]⟩
      ⟨[(1, ⟨1, "basic", true, 0, some 1000⟩)], fun _ => none⟩ 1 7 500).1
      ⟨1, "basic", true, 0, some 1000⟩ 1000 rfl rfl rfl (by norm_num),
   (subscription_extension_law ⟨true, true, ["help", "start"]⟩
      ⟨[], fun _ => none⟩ 1 7 500).2 (Or.inl rfl)⟩

/-- C7 — counterexample to the "unmapped → custom" tier rule: granting an
unmapped day-count (5) through `update_user_subscription` stores the plan
tier `"free"`, not `"custom"`. -/
theorem plan_tier_unmapped_cex :
    (update_user_subscription ⟨true, true, ["help", "start"]⟩
        ⟨[], fun _ => none⟩ 1 5 0).2.plan = "free" ∧
    ("free" : String) ≠ "custom" := by
  constructor
  · decide
  · decide

/-- C7 (amended) — the plan tier stored by
`subscription_manager.update_user_subscription` is derived from the
day-count by the fixed mapping 7→"basic", 30→"standard", 90→"premium",
and every unmapped day-count keeps the initial value `"free"` (the
divergent handlers-side variant maps unmapped day-counts to `"Custom"`
instead; neither produces `"custom"`). -/
theorem plan_tier_mapping_amended (cfg : SMConfig) (st : SMState)
    (uid plan_days : Nat) (now : Int) :
    (update_user_subscription cfg st uid plan_days now).2.plan =
      (if plan_days = 7 then "basic"
       else if plan_days = 30 then "standard"
       else if plan_days = 90 then "premium"
       else "free") := by
  simp only [update_user_subscription, sm_update_subscription_snd]

/-- Ledger fixture for the payment idempotency check: a single pending
`basic` payment by user 1. -/
def payState0 : PayState :=
  ⟨[("p1", ⟨1, "basic", 30, "pending"⟩)], [], fun _ => none, 0⟩

def payRun1 : PayState × Bool := process_payment 7 30 90 payState0 "p1" "success" 0

def payRun2 : PayState × Bool := process_payment 7 30 90 payRun1.1 "p1" "success" 0

/-- C3 — `process_payment` has no terminal-state guard: marking the same
payment `"success"` twice reports success twice, issues a second token and
extends the subscription a second time (end time moves from 30 to 60 days
from `now`), instead of rejecting the second attempt as a no-op.  (The
separate admin path `handlers/admin.approve_payment` does carry a
pending-status guard; the webhook/manual-approval path shown here does
not.) -/
theorem payment_double_success_double_grant :
    payRun1.2 = true ∧ payRun2.2 = true ∧
    (payRun1.1.subs.lookup 1).map (fun u => u.end_date) = some 2592000 ∧
    (payRun2.1.subs.lookup 1).map (fun u => u.end_date) = some 5184000 ∧
    payRun2.1.tokensAdded = 2 := by
  refine ⟨by decide, by decide, by decide, by decide, by decide⟩

/-- Sweep fixture: one subscription, active with `end_date = 100`. -/
def sweepState0 : SMState := ⟨[(1, ⟨1, "basic", true, 0, some 100⟩)], fun _ => none⟩

/-- C9 — evaluation of the sweep at its failing input (one expired active
subscription, sweep run at time 200): with auto-revoke and free-tier
fallback both on (the default config) the handler raises building the
free-tier dict (`FREE_TIER_COMMANDS.split(",")` on a list), so the sweep
returns an empty processed list for N = 1 and stores no free-tier record;
with an empty command list the `AttributeError` is avoided but the
free-tier record still cannot be persisted (its `None` expiry makes
`update_subscription` throw internally), leaving the row `"basic"` and
inactive; with auto-revoke off all N rows are processed and none revoked.
In every case the function returns the list of processed user ids, not a
count. -/
theorem sweep_fallback_failing_eval :
    (db_get_expired_subscriptions sweepState0 200).length = 1 ∧
    (process_expired_subscriptions ⟨true, true, ["help", "start"]⟩ sweepState0 200).1 = [] ∧
    (process_expired_subscriptions ⟨true, true, ["help", "start"]⟩ sweepState0 200).2.db.lookup 1 =
      some ⟨1, "basic", false, 0, some 100⟩ ∧
    (process_expired_subscriptions ⟨true, true, []⟩ sweepState0 200).1 = [1] ∧
    (process_expired_subscriptions ⟨true, true, []⟩ sweepState0 200).2.db.lookup 1 =
      some ⟨1, "basic", false, 0, some 100⟩ ∧
    (process_expired_subscriptions ⟨false, true, ["help", "start"]⟩ sweepState0 200).1 = [1] ∧
    (process_expired_subscriptions ⟨false, true, ["help", "start"]⟩ sweepState0 200).2.db.lookup 1 =
      some ⟨1, "basic", true, 0, some 100⟩ := by
  refine ⟨by decide, by decide, by decide, by decide, by decide, by decide, by decide⟩

/-- C10 — `check_user_authorization` never returns: `FREE_TIER_COMMANDS`
is a `list` already at configuration time, so the membership test
`command in FREE_TIER_COMMANDS.split(",")` raises `AttributeError` for
every user and every command — including commands (like `"help"` under
the default `"help,start"`) that are in the configured free-tier list and
that the claim says must be authorized without a subscription lookup. -/
theorem free_tier_gate_always_raises (raw : String) (cfg : SMConfig) (fuel : Nat)
    (st : SMState) (uid : Nat) (command : String) (now : Int) :
    check_user_authorization (freeTierCommandsOfEnv raw) cfg fuel st uid command now =
      none ∧
    "help" ∈ pySplit ',' "help,start" := by
  exact ⟨rfl, by decide⟩

lemma dbUpdateActive_of_some (st : SMState) (uid : Nat) (b : Bool) (r : SubRow)
    (h : st.db.lookup uid = some r) :
    dbUpdateSubscriptionActive st uid b =
      ({ st with db := st.db.map (fun p => if p.1 = uid then (p.1, { p.2 with is_active := b }) else p) }, true) := by
  unfold dbUpdateSubscriptionActive
  rw [h]

lemma dbUpdateActive_of_none (st : SMState) (uid : Nat) (b : Bool)
    (h : st.db.lookup uid = none) :
    dbUpdateSubscriptionActive st uid b = (st, false) := by
  unfold dbUpdateSubscriptionActive
  rw [h]

lemma lookup_map_setActive (db : List (Nat × SubRow)) (uid : Nat) (b : Bool) :
    (db.map (fun p => if p.1 = uid then (p.1, { p.2 with is_active := b }) else p)).lookup
        uid =
      (db.lookup uid).map (fun r => { r with is_active := b }) :=
  lookup_map_update db uid (fun r => { r with is_active := b })

lemma cacheUpdate_self (c : Nat → Option SubDict) (uid : Nat) (v : Option SubDict) :
    cacheUpdate c uid v uid = v := by
  simp [cacheUpdate]

lemma dbUpdateActive_cache (st : SMState) (uid : Nat) (b : Bool) :
    (dbUpdateSubscriptionActive st uid b).1.cache = st.cache := by
  cases hl : st.db.lookup uid with
  | none => rw [dbUpdateActive_of_none st uid b hl]
  | some r => rw [dbUpdateActive_of_some st uid b r hl]

lemma dbUpdateActive_lookup_some (st : SMState) (uid : Nat) (b : Bool) (r : SubRow)
    (h : st.db.lookup uid = some r) :
    (dbUpdateSubscriptionActive st uid b).1.db.lookup uid =
      some { r with is_active := b } := by
  rw [dbUpdateActive_of_some st uid b r h]
  have hmap := lookup_map_setActive st.db uid b
  rw [h] at hmap
  exact hmap

/-- After a successful `revoke_subscription`, the user's store row exists
and is inactive, and the user's cache entry is gone. -/
lemma revoke_success_inv (st : SMState) (uid : Nat)
    (h : (revoke_subscription st uid).2 = true) :
    (∃ r, (revoke_subscription st uid).1.db.lookup uid = some r ∧
      r.is_active = false) ∧
    (revoke_subscription st uid).1.cache uid = none := by
  cases hl : st.db.lookup uid with
  | none =>
    exfalso
    unfold revoke_subscription at h
    rw [dbUpdateActive_of_none st uid false hl] at h
    simp at h
  | some r =>
    have hlook : (revoke_subscription st uid).1.db.lookup uid =
        some { r with is_active := false } := by
      unfold revoke_subscription
      rw [dbUpdateActive_of_some st uid false r hl]
      have hmap := lookup_map_setActive st.db uid false
      rw [hl] at hmap
      exact hmap
    have hcache : (revoke_subscription st uid).1.cache uid = none := by
      unfold revoke_subscription
      rw [dbUpdateActive_of_some st uid false r hl]
      exact cacheUpdate_self _ uid none
    exact ⟨⟨{ r with is_active := false }, hlook, rfl⟩, hcache⟩

/-- `handle_expired_subscription` keeps an inactive row inactive and the
cache entry absent, whether or not it raises. -/
lemma handle_expired_inv (cfg : SMConfig) (st : SMState) (uid : Nat) (now : Int)
    (hdb : ∃ r, st.db.lookup uid = some r ∧ r.is_active = false)
    (hc : st.cache uid = none) :
    (∃ r, (handle_expired_subscription cfg st uid now).1.db.lookup uid = some r ∧
      r.is_active = false) ∧
    (handle_expired_subscription cfg st uid now).1.cache uid = none := by
  obtain ⟨r, hr, hact⟩ := hdb
  have hrevS : (revoke_subscription st uid).2 = true := by
    unfold revoke_subscription
    rw [dbUpdateActive_of_some st uid false r hr]
    rfl
  obtain ⟨⟨r1, hr1, hact1⟩, hc1⟩ := revoke_success_inv st uid hrevS
  unfold handle_expired_subscription
  by_cases har : cfg.autoRevoke = true
  · rw [if_pos har]
    have hc2 : cacheUpdate (revoke_subscription st uid).1.cache uid none uid = none :=
      cacheUpdate_self _ uid none
    by_cases hft : cfg.freeTierFallback = true
    · rw [if_pos hft]
      by_cases hne : cfg.freeCmds ≠ []
      · rw [if_pos hne]
        exact ⟨⟨r1, hr1, hact1⟩, hc2⟩
      · rw [if_neg hne]
        constructor
        · exact ⟨{ r1 with is_active := false },
            dbUpdateActive_lookup_some _ uid false r1 hr1, rfl⟩
        · rw [dbUpdateActive_cache]
          exact hc2
    · rw [if_neg hft]
      constructor
      · exact ⟨{ r1 with is_active := false },
          dbUpdateActive_lookup_some _ uid false r1 hr1, rfl⟩
      · rw [dbUpdateActive_cache]
        exact hc2
  · rw [if_neg har]
    exact ⟨⟨r, hr, hact⟩, hc⟩

/-- While the user's store row is inactive and the user's cache entry is
absent, `get_subscription_status` never reports an active subscription
(whatever the fuel; exhausted fuel and raised exceptions return `none`). -/
lemma get_status_of_inactive (cfg : SMConfig) :
    ∀ (fuel : Nat) (st : SMState) (uid : Nat) (now : Int),
      (∃ r, st.db.lookup uid = some r ∧ r.is_active = false) →
      st.cache uid = none →
      ∀ p, get_subscription_status cfg fuel st uid now = some p →
        p.2.is_active = false := by
  intro fuel
  induction fuel with
  | zero =>
    intro st uid now _ _ p hp
    exact absurd hp (by simp [get_subscription_status])
  | succ n ih =>
    intro st uid now hdb hc p hp
    obtain ⟨r, hr, hact⟩ := hdb
    have hcs : cache_step st uid now = CacheStep.miss false := by
      unfold cache_step
      rw [hc]
    have hp1 : gss_store cfg (fun s => get_subscription_status cfg n s uid now)
        st uid now = some p := by
      rw [get_subscription_status, hcs] at hp
      exact hp
    have hp2 : gss_row cfg (fun s => get_subscription_status cfg n s uid now)
        st uid now r = some p := by
      unfold gss_store at hp1
      rw [hr] at hp1
      exact hp1
    have hgact : ¬ ((rowToDict cfg r).is_active = true) := by
      show ¬ (r.is_active = true)
      rw [hact]
      simp
    unfold gss_row at hp2
    cases hend : r.end_date with
    | none =>
      rw [hend] at hp2
      have hp3 : (if (rowToDict cfg r).is_active then
          some ({ st with cache := cacheUpdate st.cache uid (some (rowToDict cfg r)) },
            rowToDict cfg r)
          else some (st, rowToDict cfg r)) = some p := hp2
      rw [if_neg hgact] at hp3
      have hpe := Option.some.inj hp3
      rw [← hpe]
      exact hact
    | some T =>
      rw [hend] at hp2
      by_cases hTn : T < now
      · have hcond : (match (some T : Option Int) with
            | some x => decide (x < now)
            | none => false) = true := by simp [hTn]
        rw [if_pos hcond] at hp2
        obtain ⟨⟨r1, hr1, ha1⟩, hc1⟩ :=
          handle_expired_inv cfg st uid now ⟨r, hr, hact⟩ hc
        by_cases hraise : (handle_expired_subscription cfg st uid now).2 = true
        · rw [if_pos hraise] at hp2
          exact absurd hp2 (by simp)
        · rw [if_neg hraise] at hp2
          have hp3 : (match get_subscription_status cfg n
              (handle_expired_subscription cfg st uid now).1 uid now with
            | none => none
            | some q =>
                if q.2.is_active then
                  some ({ q.1 with cache := cacheUpdate q.1.cache uid (some q.2) }, q.2)
                else some (q.1, q.2)) = some p := hp2
          cases hrec : get_subscription_status cfg n
              (handle_expired_subscription cfg st uid now).1 uid now with
          | none =>
            rw [hrec] at hp3
            exact absurd hp3 (by simp)
          | some q =>
            rw [hrec] at hp3
            have hqa : q.2.is_active = false :=
              ih (handle_expired_subscription cfg st uid now).1 uid now
                ⟨r1, hr1, ha1⟩ hc1 q hrec
            have hp4 : (if q.2.is_active then
                some ({ q.1 with cache := cacheUpdate q.1.cache uid (some q.2) }, q.2)
                else some (q.1, q.2)) = some p := hp3
            have hqna : ¬ (q.2.is_active = true) := by
              rw [hqa]
              simp
            rw [if_neg hqna] at hp4
            have hpe := Option.some.inj hp4
            rw [← hpe]
            exact hqa
      · have hcond : (match (some T : Option Int) with
            | some x => decide (x < now)
            | none => false) = false := by simp [hTn]
        rw [hcond] at hp2
        have hp3 : (if (rowToDict cfg r).is_active then
            some ({ st with cache := cacheUpdate st.cache uid (some (rowToDict cfg r)) },
              rowToDict cfg r)
            else some (st, rowToDict cfg r)) = some p := hp2
        rw [if_neg hgact] at hp3
        have hpe := Option.some.inj hp3
        rw [← hpe]
        exact hact

/-- A cache probe returns an entry only when the entry's own end time is
strictly in the future (`subscription_cache[user_id]["expiry_date"] >
datetime.now()`). -/
lemma cache_step_hit_fresh (st : SMState) (uid : Nat) (now : Int) (e : SubDict)
    (h : cache_step st uid now = CacheStep.hit e) :
    ∃ T, e.expiry_date = some T ∧ now < T := by
  unfold cache_step at h
  cases hc : st.cache uid with
  | none =>
    rw [hc] at h
    exact absurd h (by simp)
  | some e0 =>
    rw [hc] at h
    have h2 : (if e0.is_active then
        (match e0.expiry_date with
         | some T => if T > now then CacheStep.hit e0 else CacheStep.miss true
         | none => CacheStep.crash)
        else CacheStep.miss false) = CacheStep.hit e := h
    by_cases ha : e0.is_active = true
    · rw [if_pos ha] at h2
      cases hT : e0.expiry_date with
      | none =>
        rw [hT] at h2
        exact absurd h2 (by simp)
      | some T =>
        rw [hT] at h2
        have h3 : (if T > now then CacheStep.hit e0 else CacheStep.miss true) =
            CacheStep.hit e := h2
        by_cases hTn : T > now
        · rw [if_pos hTn] at h3
          injection h3 with he
          subst he
          exact ⟨T, hT, hTn⟩
        · rw [if_neg hTn] at h3
          exact absurd h3 (by simp)
    · rw [if_neg ha] at h2
      exact absurd h2 (by simp)

/-- C8 — after a successful `revoke_subscription`, a subsequent
`get_subscription_status` never reports an active subscription (the cache
entry was removed in the same revocation, the store row is inactive, and
raised/diverging re-reads return `none`); and independently, every cache
read re-validates the cached entry's end time against `now` before
returning it. -/
theorem revoke_then_get_not_active (cfg : SMConfig) (fuel : Nat) (st : SMState)
    (uid : Nat) (now : Int)
    (hrev : (revoke_subscription st uid).2 = true) :
    (Option.map (fun p => p.2.is_active)
        (get_subscription_status cfg fuel (revoke_subscription st uid).1 uid now) ≠
      some true) ∧
    (∀ e, cache_step st uid now = CacheStep.hit e →
      ∃ T, e.expiry_date = some T ∧ now < T) := by
  constructor
  · obtain ⟨hdb, hcache⟩ := revoke_success_inv st uid hrev
    intro hmap
    cases hget : get_subscription_status cfg fuel (revoke_subscription st uid).1 uid now with
    | none =>
      rw [hget] at hmap
      simp at hmap
    | some p =>
      rw [hget] at hmap
      have hmap2 : some (p.2.is_active) = some true := hmap
      have hfalse := get_status_of_inactive cfg fuel _ uid now hdb hcache p hget
      rw [hfalse] at hmap2
      exact absurd (Option.some.inj hmap2) (by simp)
  · intro e he
    exact cache_step_hit_fresh st uid now e he

/-- Fixture for the revocation witness: one active row ending at 1000 and
a matching fresh cache entry. -/
def revState : SMState :=
  ⟨[(1, ⟨1, "basic", true, 0, some 1000⟩)],
   fun u => if u = 1 then some ⟨1, "basic", true, 0, some 1000, CmdVal.all⟩ else none⟩

/-- Witness for the revocation theorem at time 500 with fuel 3: the revoke
succeeds, the follow-up read does not report active, and the cache probe
on the pre-revocation state only returned its entry because
`1000 > 500`. -/
theorem revoke_then_get_not_active_witness :
    (revoke_subscription revState 1).2 = true ∧
    Option.map (fun p => p.2.is_active)
        (get_subscription_status ⟨true, true, ["help", "start"]⟩ 3
          (revoke_subscription revState 1).1 1 500) ≠ some true ∧
    (∃ T, (⟨1, "basic", true, 0, some 1000, CmdVal.all⟩ : SubDict).expiry_date =
      some T ∧ (500 : Int) < T) := by
  have h := revoke_then_get_not_active ⟨true, true, ["help", "start"]⟩ 3 revState 1 500 rfl
  exact ⟨rfl, h.1, h.2 ⟨1, "basic", true, 0, some 1000, CmdVal.all⟩ rfl⟩
